import Mathlib

/-
Verification of the nossence server core (src/server/service/service.go and
src/server/bot/bot.go) against its natural-language specification.

The graph store is modelled as explicit lists of nodes and edges; each Cypher
statement issued by the Go code is translated into a pure state transformer.
Cypher MERGE is create-if-absent, so a merge appends an element only when an
identical one is not already present; Cypher DELETE is a filter; the
uniqueness constraints installed by InitDatabase (Post.id, User.pubkey) make
a MERGE that would create a second Post node with an existing id abort the
transaction with a constraint error.  Go runtime panics (nil dereference,
failed interface type assertion) are modelled by the distinguished failure
value `Failure.crash`, kept separate from failures that the Go code returns
as ordinary error values.
-/

deriving instance DecidableEq for Except

namespace Nossence

/-- Failure outcomes of a store operation.  `crash` is a Go runtime panic
(nil-pointer dereference or failed interface type assertion), which never
reaches the caller as an error value; the other constructors are ordinary
Go error values returned by the function. -/
inductive Failure where
  | crash
  | constraint
  | decodeErr
deriving DecidableEq

/-- A nostr tag, as in go-nostr: an ordered list of strings. -/
abbrev Tag := List String

/-- An inbound nostr event, mirroring the fields of nostr.Event that the
server reads: ID, PubKey, CreatedAt (Unix seconds), Kind, Tags, Content. -/
structure Event where
  id : String
  pubkey : String
  createdAt : Int
  kind : Int
  tags : List Tag
  content : String
deriving DecidableEq

/-- Tag.Value from go-nostr: the second element of the tag, or "" when the
tag has fewer than two elements. -/
def tagValue (t : Tag) : String := t.getD 1 ""

/-- The strings.HasPrefix test, expressed on the character lists of the two
strings. -/
def strHasPrefix (p s : String) : Bool := p.data.isPrefixOf s.data

/-- Tag.StartsWith from go-nostr: all elements of the pattern but the last
must equal the corresponding tag elements, and the last pattern element must
be a string prefix of the corresponding tag element.  The Go code only calls
this with nonempty patterns. -/
def tagStartsWith (t : Tag) (pat : List String) : Bool :=
  if t.length < pat.length then false
  else
    ((List.range (pat.length - 1)).all fun i => t.getD i "" == pat.getD i "")
      && strHasPrefix (pat.getD (pat.length - 1) "") (t.getD (pat.length - 1) "")

/-- Tags.GetAll from go-nostr: every tag matching the pattern, in order. -/
def getAllTags (ts : List Tag) (pat : List String) : List Tag :=
  ts.filter (fun t => tagStartsWith t pat)

/-- Tags.GetLast from go-nostr: the last tag matching the pattern, or the
nil pointer (modelled as `none`) when there is none. -/
def getLastTag (ts : List Tag) (pat : List String) : Option Tag :=
  (getAllTags ts pat).getLast?

/-- A Post node as created by saveUserAndPost: the five properties of the
Cypher merge `(p:Post {id, kind, author, content, created_at})`. -/
structure Post where
  id : String
  kind : Int
  author : String
  content : String
  createdAt : Int
deriving DecidableEq

/-- The social-graph portion of the neo4j store: User and Post nodes and the
CREATE, REPLY, LIKE, ZAP and FOLLOW relationships.  Edges are recorded by the
node keys of their endpoints; a ZAP edge also carries its amount property. -/
@[ext]
structure Graph where
  users : List String
  posts : List Post
  creates : List (String × String)
  replies : List (String × String)
  likes : List (String × String)
  zaps : List (String × String × Int)
  follows : List (String × String)
deriving DecidableEq

/-- The empty store. -/
def emptyGraph : Graph := ⟨[], [], [], [], [], [], []⟩

/-- Whether a Post node with the given id exists. -/
def hasPost (g : Graph) (pid : String) : Prop := ∃ q ∈ g.posts, q.id = pid

instance (g : Graph) (pid : String) : Decidable (hasPost g pid) :=
  inferInstanceAs (Decidable (∃ q ∈ g.posts, q.id = pid))

/-- Cypher `merge (u:User {pubkey: $Pubkey})`. -/
def mergeUser (g : Graph) (pk : String) : Graph :=
  if pk ∈ g.users then g else { g with users := g.users ++ [pk] }

/-- Cypher `merge (p:Post {id, kind, author, content, created_at})` under the
post_id_uniq constraint: a node with exactly these properties is matched and
nothing happens; otherwise creating the node violates the uniqueness
constraint when another Post already carries the same id, aborting the
transaction. -/
def mergePost (g : Graph) (p : Post) : Except Failure Graph :=
  if p ∈ g.posts then .ok g
  else if hasPost g p.id then .error .constraint
  else .ok { g with posts := g.posts ++ [p] }

/-- Cypher `match (u:User), (p:Post) where u.pubkey = $Pubkey and p.id = $Id
merge (u)-[:CREATE]->(p)`: when both endpoints exist the edge is merged,
otherwise the match is empty and nothing happens. -/
def mergeCreate (g : Graph) (pk pid : String) : Graph :=
  if pk ∈ g.users ∧ hasPost g pid then
    if (pk, pid) ∈ g.creates then g
    else { g with creates := g.creates ++ [(pk, pid)] }
  else g

/-- Cypher `match (p:Post), (r:Post) where p.id = $Id and r.id = $RefId
merge (p)-[:REPLY]->(r)`. -/
def mergeReply (g : Graph) (src dst : String) : Graph :=
  if hasPost g src ∧ hasPost g dst then
    if (src, dst) ∈ g.replies then g
    else { g with replies := g.replies ++ [(src, dst)] }
  else g

/-- Cypher `match (p:Post), (r:Post) where p.id = $Id and r.id = $RefId
merge (p)-[:LIKE]->(r)`. -/
def mergeLike (g : Graph) (src dst : String) : Graph :=
  if hasPost g src ∧ hasPost g dst then
    if (src, dst) ∈ g.likes then g
    else { g with likes := g.likes ++ [(src, dst)] }
  else g

/-- Cypher `match (p:Post), (r:Post) where p.id = $Id and r.id = $RefId
merge (p)-[:ZAP {amount: $Amount}]->(r)`: the merge matches a ZAP edge with
this amount between these posts. -/
def mergeZap (g : Graph) (src dst : String) (amt : Int) : Graph :=
  if hasPost g src ∧ hasPost g dst then
    if (src, dst, amt) ∈ g.zaps then g
    else { g with zaps := g.zaps ++ [(src, dst, amt)] }
  else g

/-- Cypher `merge (u)-[:FOLLOW]->(p)` for two already-merged User nodes. -/
def mergeFollow (g : Graph) (a b : String) : Graph :=
  if (a, b) ∈ g.follows then g
  else { g with follows := g.follows ++ [(a, b)] }

/-- The Post node written for an event by saveUserAndPost. -/
def postOf (e : Event) : Post := ⟨e.id, e.kind, e.pubkey, e.content, e.createdAt⟩

/-- saveUserAndPost: merge the author User node, merge the Post node, merge
the CREATE edge between them. -/
def saveUserAndPost (g : Graph) (e : Event) : Except Failure Graph :=
  match mergePost (mergeUser g e.pubkey) (postOf e) with
  | .error f => .error f
  | .ok g2 => .ok (mergeCreate g2 e.pubkey e.id)

/-- StorePost (kind 1): saveUserAndPost, then a REPLY edge to the first
`e`-referenced item when one is present. -/
def storePost (g : Graph) (e : Event) : Except Failure Graph :=
  match saveUserAndPost g e with
  | .error f => .error f
  | .ok g2 =>
    match getAllTags e.tags ["e"] with
    | [] => .ok g2
    | ref :: _ => .ok (mergeReply g2 e.id (tagValue ref))

/-- StoreLike (kind 7): saveUserAndPost, then a LIKE edge to the first
`e`-referenced item when one is present. -/
def storeLike (g : Graph) (e : Event) : Except Failure Graph :=
  match saveUserAndPost g e with
  | .error f => .error f
  | .ok g2 =>
    match getAllTags e.tags ["e"] with
    | [] => .ok g2
    | ref :: _ => .ok (mergeLike g2 e.id (tagValue ref))

/-- One iteration of the StoreContact loop: the Cypher statement
`merge (u:User {pubkey: $Pubkey}) merge (p:User {pubkey: $P})
merge (u)-[:FOLLOW]->(p)` for one `p` tag. -/
def contactStep (pk : String) (g : Graph) (t : Tag) : Graph :=
  mergeFollow (mergeUser (mergeUser g pk) (tagValue t)) pk (tagValue t)

/-- StoreContact (kind 3): delete every outgoing FOLLOW edge of the author,
then merge one FOLLOW edge per `p` tag of the event. -/
def storeContact (g : Graph) (e : Event) : Graph :=
  (getAllTags e.tags ["p"]).foldl (contactStep e.pubkey)
    { g with follows := g.follows.filter (fun f => !(f.1 == e.pubkey)) }

/-- The effect of the StoreContact loop on the FOLLOW edge list alone: for
each `p` tag in order, append the edge (author, value) unless it is already
present. -/
def followsFold (pk : String) (fol : List (String × String)) (ts : List Tag) :
    List (String × String) :=
  ts.foldl (fun l t => if (pk, tagValue t) ∈ l then l else l ++ [(pk, tagValue t)]) fol

/-- A decoded bolt11 invoice; only the MSatoshi field is read by the code. -/
structure Invoice where
  msatoshi : Int
deriving DecidableEq

/-- StoreZap (kind 9735).  The Go code first evaluates
`event.Tags.GetLast([]string\x7b"bolt11"\x7d).Value()`: when no bolt11 tag is
present, GetLast returns a nil pointer and the Value call dereferences it, a
runtime panic (`Failure.crash`).  Otherwise the invoice is decoded (a decode
failure is returned as an error value), and inside the transaction: when the
event has no `e` reference the write is a successful no-op, otherwise
saveUserAndPost runs and a ZAP edge carrying MSatoshi / 1000 (Go int64
division) is merged towards the first referenced item. -/
def storeZap (decode : String → Except String Invoice) (g : Graph) (e : Event) :
    Except Failure Graph :=
  match getLastTag e.tags ["bolt11"] with
  | none => .error .crash
  | some t =>
    match decode (tagValue t) with
    | .error _ => .error .decodeErr
    | .ok inv =>
      match getAllTags e.tags ["e"] with
      | [] => .ok g
      | ref :: _ =>
        match saveUserAndPost g e with
        | .error f => .error f
        | .ok g2 => .ok (mergeZap g2 e.id (tagValue ref) (Int.tdiv inv.msatoshi 1000))

/-- StoreEvent: dispatch on the event kind exactly as the Go switch does;
unsupported kinds are a logged no-op success. -/
def storeEvent (decode : String → Except String Invoice) (g : Graph) (e : Event) :
    Except Failure Graph :=
  if e.kind == 1 then storePost g e
  else if e.kind == 7 then storeLike g e
  else if e.kind == 3 then .ok (storeContact g e)
  else if e.kind == 9735 then storeZap decode g e
  else .ok g

/-! Feed ranking (GetFeed).  The Cypher query selects Post nodes with
`created_at > $Start and created_at < $End`, scores each by
`count(distinct r1.author)*15 + count(distinct r2.author)*10 +
count(distinct r3.author)*50` over the posts with REPLY, LIKE and ZAP edges
into it, orders by score descending and truncates to the limit. -/

/-- A row of the GetFeed result. -/
structure FeedEntry where
  id : String
  kind : Int
  pubkey : String
  content : String
  createdAt : Int
  score : Nat
deriving DecidableEq

/-- Posts with a REPLY edge into the given post. -/
def repliers (g : Graph) (pid : String) : List Post :=
  g.posts.filter (fun r => (r.id, pid) ∈ g.replies)

/-- Posts with a LIKE edge into the given post. -/
def likers (g : Graph) (pid : String) : List Post :=
  g.posts.filter (fun r => (r.id, pid) ∈ g.likes)

/-- Posts with a ZAP edge (of any amount) into the given post. -/
def zappers (g : Graph) (pid : String) : List Post :=
  g.posts.filter (fun r => g.zaps.any (fun z => z.1 == r.id && z.2.1 == pid))

/-- Number of distinct author values among a list of posts, the
`count(distinct r.author)` aggregate. -/
def distinctAuthors (l : List Post) : Nat := (l.map Post.author).dedup.length

/-- The weighted engagement score of one candidate post. -/
def feedScore (g : Graph) (pid : String) : Nat :=
  15 * distinctAuthors (repliers g pid) + 10 * distinctAuthors (likers g pid)
    + 50 * distinctAuthors (zappers g pid)

/-- The result row built from a candidate post. -/
def feedEntryOf (g : Graph) (p : Post) : FeedEntry :=
  ⟨p.id, p.kind, p.author, p.content, p.createdAt, feedScore g p.id⟩

/-- Insert an entry into a list that is sorted by score descending, keeping
it sorted (`order by score desc`; the tie-break among equal scores is
unspecified upstream, and this model keeps earlier candidates first). -/
def insertDesc (e : FeedEntry) : List FeedEntry → List FeedEntry
  | [] => [e]
  | x :: xs => if x.score < e.score then e :: x :: xs else x :: insertDesc e xs

/-- Sort feed entries by score descending. -/
def sortDesc (l : List FeedEntry) : List FeedEntry := l.foldr insertDesc []

/-- GetFeed: candidates strictly inside the window, scored, sorted by score
descending, truncated to the limit. -/
def getFeed (g : Graph) (start stop : Int) (limit : Nat) : List FeedEntry :=
  (sortDesc ((g.posts.filter fun p =>
    decide (start < p.createdAt ∧ p.createdAt < stop)).map (feedEntryOf g))).take limit

/-- A transient store failure, seen by GetFeed as a non-nil error from the
read transaction. -/
inductive StoreError where
  | connection
  | transaction
deriving DecidableEq

/-- GetFeed including the error handling of the Go function: when the read
transaction fails, the error is logged and the Go nil slice is returned
(modelled as `none`); a successful read returns the non-nil slice built by
`make` and repeated append (modelled as `some`). -/
def getFeedTop (res : Except StoreError Graph) (start stop : Int) (limit : Nat) :
    Option (List FeedEntry) :=
  match res with
  | .error _ => none
  | .ok g => some (getFeed g start stop limit)

/-! Subscription lifecycle.  A Subscriber node stores pubkey, channel_secret,
subscribed_at and possibly unsubscribed_at; Cypher `SET s.unsubscribed_at =
null` removes the property, so an active subscriber has no unsubscribed_at
property, modelled as `none`. -/

/-- A Subscriber node in the store. -/
structure SubNode where
  pubkey : String
  channelSecret : String
  subscribedAt : Int
  unsubscribedAt : Option Int
deriving DecidableEq

/-- The Subscriber portion of the store. -/
abbrev SubStore := List SubNode

/-- CreateSubscriber: `MERGE (s:Subscriber {pubkey}) ON CREATE SET
channel_secret, subscribed_at, unsubscribed_at = null` — a record is added
only when none exists for the pubkey, and setting unsubscribed_at to null
leaves the property absent. -/
def createSubscriber (st : SubStore) (pk sk : String) (t : Int) : SubStore :=
  if st.any (fun s => s.pubkey == pk) then st else st ++ [⟨pk, sk, t, none⟩]

/-- The types.Subscriber value built by GetSubscriber; the two timestamps are
the Unix-second arguments passed to time.Unix. -/
structure GoSubscriber where
  pubkey : String
  channelSecret : String
  subscribedAt : Int
  unsubscribedAt : Int
deriving DecidableEq

/-- Unix seconds of the Go zero time.Time (January 1, year 1 UTC):
time.Unix(v, 0).IsZero() holds exactly when v is this value. -/
def goUnixZero : Int := -62135596800

/-- The IsZero test applied by RestoreSubscriber to a time built with
time.Unix(v, 0). -/
def goTimeIsZero (v : Int) : Bool := v == goUnixZero

/-- GetSubscriber: when no record matches, result.Single fails and the Go
function logs the error and returns a nil pointer (`none`).  When a record
matches, the row values are converted with interface type assertions;
`record.Values[3].(int64)` panics when unsubscribed_at is null, which is the
case for every active subscriber. -/
def getSubscriber (st : SubStore) (pk : String) :
    Except Failure (Option GoSubscriber) :=
  match st.find? (fun s => s.pubkey == pk) with
  | none => .ok none
  | some s =>
    match s.unsubscribedAt with
    | none => .error .crash
    | some v => .ok (some ⟨s.pubkey, s.channelSecret, s.subscribedAt, v⟩)

/-- DeleteSubscriber (Terminate): `MATCH (s:Subscriber {pubkey}) SET
s.unsubscribed_at = $UnsubscribedAt`; a no-op when no record matches. -/
def deleteSubscriber (st : SubStore) (pk : String) (t : Int) : SubStore :=
  st.map (fun s => if s.pubkey == pk then { s with unsubscribedAt := some t } else s)

/-- RestoreSubscriber: fetches the subscriber and immediately reads
subscriber.UnsubscribedAt — a nil-pointer dereference (crash) when
GetSubscriber returned nil; returns (false, nil) when the stored time is the
Go zero time; otherwise clears unsubscribed_at, refreshes subscribed_at and
returns (true, nil). -/
def restoreSubscriber (st : SubStore) (pk : String) (t : Int) :
    Except Failure (Bool × SubStore) :=
  match getSubscriber st pk with
  | .error f => .error f
  | .ok none => .error .crash
  | .ok (some s) =>
    if goTimeIsZero s.unsubscribedAt then .ok (false, st)
    else
      .ok (true, st.map (fun x =>
        if x.pubkey == pk then { x with unsubscribedAt := none, subscribedAt := t }
        else x))

/-- GetOrCreateSubscription (bot.go): return the existing subscriber's
channel secret with isNew=false, or generate a fresh secret (passed here as
`skNew`), persist it and return isNew=true. -/
def getOrCreateSubscription (st : SubStore) (pk skNew : String) (now : Int) :
    Except Failure (String × Bool × SubStore) :=
  match getSubscriber st pk with
  | .error f => .error f
  | .ok (some s) => .ok (s.channelSecret, false, st)
  | .ok none => .ok (skNew, true, createSubscriber st pk skNew now)

/-! Concrete inputs used by counterexamples and witnesses. -/

/-- A concrete invoice decoder: "inv3000" decodes to a 3000 msat invoice,
everything else fails to decode. -/
def dec0 : String → Except String Invoice :=
  fun s => if s == "inv3000" then .ok ⟨3000⟩ else .error "decode failure"

/-- A kind-1 post event with no tags. -/
def evPost1 : Event := ⟨"a", "p1", 10, 1, [], "hi"⟩

/-- The graph produced by storing evPost1 on the empty store. -/
def gPost1 : Graph :=
  ⟨["p1"], [⟨"a", 1, "p1", "hi", 10⟩], [("p1", "a")], [], [], [], []⟩

/-- A kind-9735 event with no tags at all. -/
def evZapNoTags : Event := ⟨"z0", "pz", 70, 9735, [], ""⟩

/-- A kind-9735 event with a decodable bolt11 tag and no `e` reference. -/
def evZapNoRef : Event := ⟨"z2", "pz", 70, 9735, [["bolt11", "inv3000"]], ""⟩

/-- A kind-9735 event with a decodable bolt11 tag referencing post "a". -/
def evZap : Event := ⟨"z1", "pz", 70, 9735, [["bolt11", "inv3000"], ["e", "a"]], ""⟩

/-- A store holding just the post "a" and its author. -/
def gA : Graph := ⟨["pa"], [⟨"a", 1, "pa", "ca", 50⟩], [("pa", "a")], [], [], [], []⟩

/-- The store after applying evZap to gA. -/
def gAZap : Graph :=
  ⟨["pa", "pz"], [⟨"a", 1, "pa", "ca", 50⟩, ⟨"z1", 9735, "pz", "", 70⟩],
    [("pa", "a"), ("pz", "z1")], [], [], [("z1", "a", 3)], []⟩

/-- A follow-list event from pk0 referencing u1, u2 and u1 again. -/
def evContactA : Event :=
  ⟨"c1", "pk0", 20, 3, [["p", "u1"], ["p", "u2"], ["p", "u1"]], ""⟩

/-- A second follow-list event from pk0 referencing u2 and u3. -/
def evContactB : Event := ⟨"c2", "pk0", 21, 3, [["p", "u2"], ["p", "u3"]], ""⟩

/-- The scoring scenario of the spec: post "a" (in the window) has replies
from two distinct authors and a like from one author and no zaps; post "b"
(in the window) has one like; the interacting posts sit outside the window. -/
def exG2 : Graph :=
  ⟨["pa", "pb", "u1", "u2", "u3", "u4"],
    [⟨"a", 1, "pa", "ca", 50⟩, ⟨"b", 1, "pb", "cb", 60⟩,
      ⟨"r1", 1, "u1", "", 200⟩, ⟨"r2", 1, "u2", "", 200⟩,
      ⟨"l1", 7, "u3", "", 200⟩, ⟨"l2", 7, "u4", "", 200⟩],
    [("pa", "a"), ("pb", "b"), ("u1", "r1"), ("u2", "r2"), ("u3", "l1"), ("u4", "l2")],
    [("r1", "a"), ("r2", "a")],
    [("l1", "a"), ("l2", "b")],
    [],
    []⟩

/-- The feed entry GetFeed builds for post "a" of exG2. -/
def entryA : FeedEntry := ⟨"a", 1, "pa", "ca", 50, 40⟩

/-! Helper lemmas about the individual merge operations. -/

theorem mergeUser_posts (g : Graph) (pk : String) : (mergeUser g pk).posts = g.posts := by
  unfold mergeUser; split <;> rfl

theorem mergeUser_creates (g : Graph) (pk : String) :
    (mergeUser g pk).creates = g.creates := by
  unfold mergeUser; split <;> rfl

theorem mergeUser_replies (g : Graph) (pk : String) :
    (mergeUser g pk).replies = g.replies := by
  unfold mergeUser; split <;> rfl

theorem mergeUser_likes (g : Graph) (pk : String) : (mergeUser g pk).likes = g.likes := by
  unfold mergeUser; split <;> rfl

theorem mergeUser_zaps (g : Graph) (pk : String) : (mergeUser g pk).zaps = g.zaps := by
  unfold mergeUser; split <;> rfl

theorem mergeUser_follows (g : Graph) (pk : String) :
    (mergeUser g pk).follows = g.follows := by
  unfold mergeUser; split <;> rfl

theorem mergeUser_mem_self (g : Graph) (pk : String) : pk ∈ (mergeUser g pk).users := by
  unfold mergeUser; split
  · assumption
  · simp

theorem mergeUser_users_mono {g : Graph} {x : String} (pk : String) (h : x ∈ g.users) :
    x ∈ (mergeUser g pk).users := by
  unfold mergeUser; split
  · exact h
  · simp [h]

theorem mergeUser_of_mem {g : Graph} {pk : String} (h : pk ∈ g.users) :
    mergeUser g pk = g := by
  unfold mergeUser; rw [if_pos h]

theorem mergePost_ok_fields {g g2 : Graph} {p : Post} (h : mergePost g p = .ok g2) :
    g2.users = g.users ∧ g2.creates = g.creates ∧ g2.replies = g.replies
      ∧ g2.likes = g.likes ∧ g2.zaps = g.zaps ∧ g2.follows = g.follows := by
  unfold mergePost at h
  split at h
  · cases h; exact ⟨rfl, rfl, rfl, rfl, rfl, rfl⟩
  · split at h
    · cases h
    · cases h; exact ⟨rfl, rfl, rfl, rfl, rfl, rfl⟩

theorem mergePost_ok_mem {g g2 : Graph} {p : Post} (h : mergePost g p = .ok g2) :
    p ∈ g2.posts := by
  unfold mergePost at h
  split at h
  · cases h; assumption
  · split at h
    · cases h
    · cases h; simp

theorem mergePost_ok_posts_mono {g g2 : Graph} {p : Post} (h : mergePost g p = .ok g2) :
    ∀ q ∈ g.posts, q ∈ g2.posts := by
  intro q hq
  unfold mergePost at h
  split at h
  · cases h; exact hq
  · split at h
    · cases h
    · cases h; simp [hq]

theorem mergePost_of_mem {g : Graph} {p : Post} (h : p ∈ g.posts) :
    mergePost g p = .ok g := by
  unfold mergePost; rw [if_pos h]

theorem mergeCreate_users (g : Graph) (pk pid : String) :
    (mergeCreate g pk pid).users = g.users := by
  unfold mergeCreate; split
  · split <;> rfl
  · rfl

theorem mergeCreate_posts (g : Graph) (pk pid : String) :
    (mergeCreate g pk pid).posts = g.posts := by
  unfold mergeCreate; split
  · split <;> rfl
  · rfl

theorem mergeCreate_replies (g : Graph) (pk pid : String) :
    (mergeCreate g pk pid).replies = g.replies := by
  unfold mergeCreate; split
  · split <;> rfl
  · rfl

theorem mergeCreate_likes (g : Graph) (pk pid : String) :
    (mergeCreate g pk pid).likes = g.likes := by
  unfold mergeCreate; split
  · split <;> rfl
  · rfl

theorem mergeCreate_zaps (g : Graph) (pk pid : String) :
    (mergeCreate g pk pid).zaps = g.zaps := by
  unfold mergeCreate; split
  · split <;> rfl
  · rfl

theorem mergeCreate_follows (g : Graph) (pk pid : String) :
    (mergeCreate g pk pid).follows = g.follows := by
  unfold mergeCreate; split
  · split <;> rfl
  · rfl

theorem mergeCreate_mem {g : Graph} {pk pid : String} (hu : pk ∈ g.users)
    (hp : hasPost g pid) : (pk, pid) ∈ (mergeCreate g pk pid).creates := by
  unfold mergeCreate
  rw [if_pos ⟨hu, hp⟩]
  split
  · assumption
  · simp

theorem mergeCreate_of_mem {g : Graph} {pk pid : String}
    (h : (pk, pid) ∈ g.creates) : mergeCreate g pk pid = g := by
  unfold mergeCreate; split <;> simp [h]

theorem mergeReply_eq (g : Graph) (a b : String) :
    ∃ r, mergeReply g a b = { g with replies := r } := by
  unfold mergeReply; split
  · split
    · exact ⟨g.replies, rfl⟩
    · exact ⟨_, rfl⟩
  · exact ⟨g.replies, rfl⟩

theorem mergeReply_of_mem {g : Graph} {a b : String} (h : (a, b) ∈ g.replies) :
    mergeReply g a b = g := by
  unfold mergeReply; split <;> simp [h]

theorem mergeReply_self (g : Graph) (a b : String) :
    mergeReply (mergeReply g a b) a b = mergeReply g a b := by
  by_cases hc : hasPost g a ∧ hasPost g b
  · by_cases hm : (a, b) ∈ g.replies
    · rw [mergeReply_of_mem hm]; exact mergeReply_of_mem hm
    · have hr : (a, b) ∈ (mergeReply g a b).replies := by
        unfold mergeReply; rw [if_pos hc, if_neg hm]; simp
      exact mergeReply_of_mem hr
  · have hng : mergeReply g a b = g := by unfold mergeReply; rw [if_neg hc]
    rw [hng]; exact hng

theorem mergeLike_eq (g : Graph) (a b : String) :
    ∃ r, mergeLike g a b = { g with likes := r } := by
  unfold mergeLike; split
  · split
    · exact ⟨g.likes, rfl⟩
    · exact ⟨_, rfl⟩
  · exact ⟨g.likes, rfl⟩

theorem mergeLike_of_mem {g : Graph} {a b : String} (h : (a, b) ∈ g.likes) :
    mergeLike g a b = g := by
  unfold mergeLike; split <;> simp [h]

theorem mergeLike_self (g : Graph) (a b : String) :
    mergeLike (mergeLike g a b) a b = mergeLike g a b := by
  by_cases hc : hasPost g a ∧ hasPost g b
  · by_cases hm : (a, b) ∈ g.likes
    · rw [mergeLike_of_mem hm]; exact mergeLike_of_mem hm
    · have hr : (a, b) ∈ (mergeLike g a b).likes := by
        unfold mergeLike; rw [if_pos hc, if_neg hm]; simp
      exact mergeLike_of_mem hr
  · have hng : mergeLike g a b = g := by unfold mergeLike; rw [if_neg hc]
    rw [hng]; exact hng

theorem mergeZap_eq (g : Graph) (a b : String) (amt : Int) :
    ∃ r, mergeZap g a b amt = { g with zaps := r } := by
  unfold mergeZap; split
  · split
    · exact ⟨g.zaps, rfl⟩
    · exact ⟨_, rfl⟩
  · exact ⟨g.zaps, rfl⟩

theorem mergeZap_of_mem {g : Graph} {a b : String} {amt : Int}
    (h : (a, b, amt) ∈ g.zaps) : mergeZap g a b amt = g := by
  unfold mergeZap; split <;> simp [h]

theorem mergeZap_self (g : Graph) (a b : String) (amt : Int) :
    mergeZap (mergeZap g a b amt) a b amt = mergeZap g a b amt := by
  by_cases hc : hasPost g a ∧ hasPost g b
  · by_cases hm : (a, b, amt) ∈ g.zaps
    · rw [mergeZap_of_mem hm]; exact mergeZap_of_mem hm
    · have hr : (a, b, amt) ∈ (mergeZap g a b amt).zaps := by
        unfold mergeZap; rw [if_pos hc, if_neg hm]; simp
      exact mergeZap_of_mem hr
  · have hng : mergeZap g a b amt = g := by unfold mergeZap; rw [if_neg hc]
    rw [hng]; exact hng

theorem mergeZap_zaps_sub {g : Graph} {a b : String} {amt : Int} :
    ∀ z ∈ (mergeZap g a b amt).zaps, z ∈ g.zaps ∨ z = (a, b, amt) := by
  intro z hz
  unfold mergeZap at hz
  split at hz
  · split at hz
    · exact Or.inl hz
    · rcases List.mem_append.mp hz with h | h
      · exact Or.inl h
      · simp at h; exact Or.inr h
  · exact Or.inl hz

theorem mergeFollow_eq (g : Graph) (a b : String) :
    ∃ r, mergeFollow g a b = { g with follows := r } := by
  unfold mergeFollow; split
  · exact ⟨g.follows, rfl⟩
  · exact ⟨_, rfl⟩

/-! Lemmas about saveUserAndPost and the per-kind store functions. -/

theorem saveUserAndPost_ok_spec {g g' : Graph} {e : Event}
    (h : saveUserAndPost g e = .ok g') :
    e.pubkey ∈ g'.users ∧ postOf e ∈ g'.posts ∧ (e.pubkey, e.id) ∈ g'.creates
      ∧ g'.replies = g.replies ∧ g'.likes = g.likes ∧ g'.zaps = g.zaps
      ∧ g'.follows = g.follows ∧ (∀ q ∈ g.posts, q ∈ g'.posts)
      ∧ ∀ u ∈ g.users, u ∈ g'.users := by
  unfold saveUserAndPost at h
  cases hm : mergePost (mergeUser g e.pubkey) (postOf e) with
  | error f => rw [hm] at h; cases h
  | ok g2 =>
    rw [hm] at h
    cases h
    obtain ⟨hu2, hc2, hr2, hl2, hz2, hf2⟩ := mergePost_ok_fields hm
    have hpk2 : e.pubkey ∈ g2.users := by
      rw [hu2]; exact mergeUser_mem_self g e.pubkey
    have hpost2 : postOf e ∈ g2.posts := mergePost_ok_mem hm
    have hhp2 : hasPost g2 e.id := ⟨postOf e, hpost2, rfl⟩
    refine ⟨?_, ?_, ?_, ?_, ?_, ?_, ?_, ?_, ?_⟩
    · rw [mergeCreate_users]; exact hpk2
    · rw [mergeCreate_posts]; exact hpost2
    · exact mergeCreate_mem hpk2 hhp2
    · rw [mergeCreate_replies, hr2, mergeUser_replies]
    · rw [mergeCreate_likes, hl2, mergeUser_likes]
    · rw [mergeCreate_zaps, hz2, mergeUser_zaps]
    · rw [mergeCreate_follows, hf2, mergeUser_follows]
    · intro q hq
      rw [mergeCreate_posts]
      exact mergePost_ok_posts_mono hm q (by rw [mergeUser_posts]; exact hq)
    · intro u hu
      rw [mergeCreate_users, hu2]
      exact mergeUser_users_mono e.pubkey hu

theorem saveUserAndPost_noop {g : Graph} {e : Event} (hu : e.pubkey ∈ g.users)
    (hp : postOf e ∈ g.posts) (hc : (e.pubkey, e.id) ∈ g.creates) :
    saveUserAndPost g e = .ok g := by
  unfold saveUserAndPost
  rw [mergeUser_of_mem hu, mergePost_of_mem hp]
  simp [mergeCreate_of_mem hc]

theorem saveUserAndPost_idem {g g' : Graph} {e : Event}
    (h : saveUserAndPost g e = .ok g') : saveUserAndPost g' e = .ok g' := by
  obtain ⟨hu, hp, hc, _⟩ := saveUserAndPost_ok_spec h
  exact saveUserAndPost_noop hu hp hc

theorem storePost_idem {g g' : Graph} {e : Event} (h : storePost g e = .ok g') :
    storePost g' e = .ok g' := by
  unfold storePost at h ⊢
  cases hs : saveUserAndPost g e with
  | error f => simp [hs] at h
  | ok g2 =>
    simp only [hs] at h
    cases href : getAllTags e.tags ["e"] with
    | nil =>
      simp only [href] at h ⊢
      cases h
      simp only [saveUserAndPost_idem hs]
    | cons r rs =>
      simp only [href] at h ⊢
      cases h
      obtain ⟨hu, hp, hc, _⟩ := saveUserAndPost_ok_spec hs
      obtain ⟨rr, hrr⟩ := mergeReply_eq g2 e.id (tagValue r)
      have hsv : saveUserAndPost (mergeReply g2 e.id (tagValue r)) e
          = .ok (mergeReply g2 e.id (tagValue r)) := by
        rw [hrr]; exact saveUserAndPost_noop hu hp hc
      simp only [hsv, mergeReply_self]

theorem storeLike_idem {g g' : Graph} {e : Event} (h : storeLike g e = .ok g') :
    storeLike g' e = .ok g' := by
  unfold storeLike at h ⊢
  cases hs : saveUserAndPost g e with
  | error f => simp [hs] at h
  | ok g2 =>
    simp only [hs] at h
    cases href : getAllTags e.tags ["e"] with
    | nil =>
      simp only [href] at h ⊢
      cases h
      simp only [saveUserAndPost_idem hs]
    | cons r rs =>
      simp only [href] at h ⊢
      cases h
      obtain ⟨hu, hp, hc, _⟩ := saveUserAndPost_ok_spec hs
      obtain ⟨rr, hrr⟩ := mergeLike_eq g2 e.id (tagValue r)
      have hsv : saveUserAndPost (mergeLike g2 e.id (tagValue r)) e
          = .ok (mergeLike g2 e.id (tagValue r)) := by
        rw [hrr]; exact saveUserAndPost_noop hu hp hc
      simp only [hsv, mergeLike_self]

theorem storeZap_idem {g g' : Graph} {e : Event}
    {decode : String → Except String Invoice} (h : storeZap decode g e = .ok g') :
    storeZap decode g' e = .ok g' := by
  unfold storeZap at h ⊢
  cases hb : getLastTag e.tags ["bolt11"] with
  | none => simp [hb] at h
  | some t =>
    simp only [hb] at h ⊢
    cases hd : decode (tagValue t) with
    | error s => simp [hd] at h
    | ok inv =>
      simp only [hd] at h ⊢
      cases href : getAllTags e.tags ["e"] with
      | nil => simp only [href] at h ⊢
      | cons r rs =>
        simp only [href] at h ⊢
        cases hs : saveUserAndPost g e with
        | error f => simp [hs] at h
        | ok g2 =>
          simp only [hs] at h
          cases h
          obtain ⟨hu, hp, hc, _⟩ := saveUserAndPost_ok_spec hs
          obtain ⟨rr, hrr⟩ := mergeZap_eq g2 e.id (tagValue r) (Int.tdiv inv.msatoshi 1000)
          have hsv : saveUserAndPost (mergeZap g2 e.id (tagValue r) (Int.tdiv inv.msatoshi 1000)) e
              = .ok (mergeZap g2 e.id (tagValue r) (Int.tdiv inv.msatoshi 1000)) := by
            rw [hrr]; exact saveUserAndPost_noop hu hp hc
          simp only [hsv, mergeZap_self]

/-! Lemmas about storeContact. -/

theorem contactStep_posts (pk : String) (g : Graph) (t : Tag) :
    (contactStep pk g t).posts = g.posts := by
  unfold contactStep
  obtain ⟨r, hr⟩ := mergeFollow_eq (mergeUser (mergeUser g pk) (tagValue t)) pk (tagValue t)
  rw [hr]
  show (mergeUser (mergeUser g pk) (tagValue t)).posts = g.posts
  rw [mergeUser_posts, mergeUser_posts]

theorem contactStep_creates (pk : String) (g : Graph) (t : Tag) :
    (contactStep pk g t).creates = g.creates := by
  unfold contactStep
  obtain ⟨r, hr⟩ := mergeFollow_eq (mergeUser (mergeUser g pk) (tagValue t)) pk (tagValue t)
  rw [hr]
  show (mergeUser (mergeUser g pk) (tagValue t)).creates = g.creates
  rw [mergeUser_creates, mergeUser_creates]

theorem contactStep_replies (pk : String) (g : Graph) (t : Tag) :
    (contactStep pk g t).replies = g.replies := by
  unfold contactStep
  obtain ⟨r, hr⟩ := mergeFollow_eq (mergeUser (mergeUser g pk) (tagValue t)) pk (tagValue t)
  rw [hr]
  show (mergeUser (mergeUser g pk) (tagValue t)).replies = g.replies
  rw [mergeUser_replies, mergeUser_replies]

theorem contactStep_likes (pk : String) (g : Graph) (t : Tag) :
    (contactStep pk g t).likes = g.likes := by
  unfold contactStep
  obtain ⟨r, hr⟩ := mergeFollow_eq (mergeUser (mergeUser g pk) (tagValue t)) pk (tagValue t)
  rw [hr]
  show (mergeUser (mergeUser g pk) (tagValue t)).likes = g.likes
  rw [mergeUser_likes, mergeUser_likes]

theorem contactStep_zaps (pk : String) (g : Graph) (t : Tag) :
    (contactStep pk g t).zaps = g.zaps := by
  unfold contactStep
  obtain ⟨r, hr⟩ := mergeFollow_eq (mergeUser (mergeUser g pk) (tagValue t)) pk (tagValue t)
  rw [hr]
  show (mergeUser (mergeUser g pk) (tagValue t)).zaps = g.zaps
  rw [mergeUser_zaps, mergeUser_zaps]

theorem contactFold_posts (pk : String) (ts : List Tag) (g : Graph) :
    (ts.foldl (contactStep pk) g).posts = g.posts := by
  induction ts generalizing g with
  | nil => rfl
  | cons t ts ih => rw [List.foldl_cons, ih, contactStep_posts]

theorem contactFold_creates (pk : String) (ts : List Tag) (g : Graph) :
    (ts.foldl (contactStep pk) g).creates = g.creates := by
  induction ts generalizing g with
  | nil => rfl
  | cons t ts ih => rw [List.foldl_cons, ih, contactStep_creates]

theorem contactFold_replies (pk : String) (ts : List Tag) (g : Graph) :
    (ts.foldl (contactStep pk) g).replies = g.replies := by
  induction ts generalizing g with
  | nil => rfl
  | cons t ts ih => rw [List.foldl_cons, ih, contactStep_replies]

theorem contactFold_likes (pk : String) (ts : List Tag) (g : Graph) :
    (ts.foldl (contactStep pk) g).likes = g.likes := by
  induction ts generalizing g with
  | nil => rfl
  | cons t ts ih => rw [List.foldl_cons, ih, contactStep_likes]

theorem contactFold_zaps (pk : String) (ts : List Tag) (g : Graph) :
    (ts.foldl (contactStep pk) g).zaps = g.zaps := by
  induction ts generalizing g with
  | nil => rfl
  | cons t ts ih => rw [List.foldl_cons, ih, contactStep_zaps]

theorem contactStep_users_mono {g : Graph} {x : String} (pk : String) (t : Tag)
    (h : x ∈ g.users) : x ∈ (contactStep pk g t).users := by
  unfold contactStep
  obtain ⟨r, hr⟩ := mergeFollow_eq (mergeUser (mergeUser g pk) (tagValue t)) pk (tagValue t)
  rw [hr]
  show x ∈ (mergeUser (mergeUser g pk) (tagValue t)).users
  exact mergeUser_users_mono _ (mergeUser_users_mono _ h)

theorem contactFold_users_mono (pk : String) (ts : List Tag) {g : Graph} {x : String}
    (h : x ∈ g.users) : x ∈ (ts.foldl (contactStep pk) g).users := by
  induction ts generalizing g with
  | nil => exact h
  | cons t ts ih => rw [List.foldl_cons]; exact ih (contactStep_users_mono pk t h)

theorem contactStep_users_mem_pk (pk : String) (g : Graph) (t : Tag) :
    pk ∈ (contactStep pk g t).users := by
  unfold contactStep
  obtain ⟨r, hr⟩ := mergeFollow_eq (mergeUser (mergeUser g pk) (tagValue t)) pk (tagValue t)
  rw [hr]
  show pk ∈ (mergeUser (mergeUser g pk) (tagValue t)).users
  exact mergeUser_users_mono _ (mergeUser_mem_self g pk)

theorem contactStep_users_mem_val (pk : String) (g : Graph) (t : Tag) :
    tagValue t ∈ (contactStep pk g t).users := by
  unfold contactStep
  obtain ⟨r, hr⟩ := mergeFollow_eq (mergeUser (mergeUser g pk) (tagValue t)) pk (tagValue t)
  rw [hr]
  show tagValue t ∈ (mergeUser (mergeUser g pk) (tagValue t)).users
  exact mergeUser_mem_self _ (tagValue t)

theorem contactFold_users_mem (pk : String) (ts : List Tag) (g : Graph) :
    ∀ t ∈ ts, pk ∈ (ts.foldl (contactStep pk) g).users
      ∧ tagValue t ∈ (ts.foldl (contactStep pk) g).users := by
  induction ts generalizing g with
  | nil => intro t ht; cases ht
  | cons t0 ts ih =>
    intro t ht
    rw [List.foldl_cons]
    rcases List.mem_cons.mp ht with rfl | ht'
    · exact ⟨contactFold_users_mono pk ts (contactStep_users_mem_pk pk g t),
        contactFold_users_mono pk ts (contactStep_users_mem_val pk g t)⟩
    · exact ih (contactStep pk g t0) t ht'

theorem contactStep_users_noop {g : Graph} {pk : String} {t : Tag}
    (h1 : pk ∈ g.users) (h2 : tagValue t ∈ g.users) :
    (contactStep pk g t).users = g.users := by
  unfold contactStep
  rw [mergeUser_of_mem h1, mergeUser_of_mem h2]
  obtain ⟨r, hr⟩ := mergeFollow_eq g pk (tagValue t)
  rw [hr]

theorem contactFold_users_noop (pk : String) (ts : List Tag) {g : Graph}
    (h : ∀ t ∈ ts, pk ∈ g.users ∧ tagValue t ∈ g.users) :
    (ts.foldl (contactStep pk) g).users = g.users := by
  induction ts generalizing g with
  | nil => rfl
  | cons t ts ih =>
    rw [List.foldl_cons]
    obtain ⟨hpk, hval⟩ := h t (List.mem_cons_self t ts)
    have hstep : (contactStep pk g t).users = g.users :=
      contactStep_users_noop hpk hval
    have hrest := ih (g := contactStep pk g t)
      (by intro t' ht'; rw [hstep]; exact h t' (List.mem_cons_of_mem t ht'))
    rw [hrest, hstep]

theorem contactStep_follows (pk : String) (g : Graph) (t : Tag) :
    (contactStep pk g t).follows =
      if (pk, tagValue t) ∈ g.follows then g.follows
      else g.follows ++ [(pk, tagValue t)] := by
  unfold contactStep mergeFollow
  split
  next hc =>
    rw [mergeUser_follows, mergeUser_follows] at hc
    rw [mergeUser_follows, mergeUser_follows, if_pos hc]
  next hc =>
    rw [mergeUser_follows, mergeUser_follows] at hc
    show (mergeUser (mergeUser g pk) (tagValue t)).follows ++ [(pk, tagValue t)] = _
    rw [mergeUser_follows, mergeUser_follows, if_neg hc]

theorem followsFold_cons (pk : String) (fol : List (String × String)) (t : Tag)
    (ts : List Tag) :
    followsFold pk fol (t :: ts) =
      followsFold pk (if (pk, tagValue t) ∈ fol then fol
        else fol ++ [(pk, tagValue t)]) ts := rfl

theorem contactFold_follows (pk : String) (ts : List Tag) (g : Graph) :
    (ts.foldl (contactStep pk) g).follows = followsFold pk g.follows ts := by
  induction ts generalizing g with
  | nil => rfl
  | cons t ts ih =>
    rw [List.foldl_cons, ih, contactStep_follows, followsFold_cons]

theorem followsFold_shape (pk : String) (ts : List Tag) (fol : List (String × String)) :
    ∃ ad, followsFold pk fol ts = fol ++ ad ∧ ∀ x ∈ ad, x.1 = pk := by
  induction ts generalizing fol with
  | nil => exact ⟨[], by simp [followsFold], by simp⟩
  | cons t ts ih =>
    rw [followsFold_cons]
    by_cases hm : (pk, tagValue t) ∈ fol
    · rw [if_pos hm]; exact ih fol
    · rw [if_neg hm]
      obtain ⟨ad, had, hall⟩ := ih (fol ++ [(pk, tagValue t)])
      refine ⟨(pk, tagValue t) :: ad, by rw [had]; simp, ?_⟩
      intro x hx
      rcases List.mem_cons.mp hx with rfl | hx'
      · rfl
      · exact hall x hx'

theorem followsFold_mem (pk : String) (ts : List Tag) (fol : List (String × String))
    (x : String × String) :
    x ∈ followsFold pk fol ts ↔ x ∈ fol ∨ ∃ t ∈ ts, x = (pk, tagValue t) := by
  induction ts generalizing fol with
  | nil => simp [followsFold]
  | cons t ts ih =>
    rw [followsFold_cons]
    by_cases hm : (pk, tagValue t) ∈ fol
    · rw [if_pos hm, ih]
      constructor
      · rintro (h | ⟨t', ht', rfl⟩)
        · exact Or.inl h
        · exact Or.inr ⟨t', List.mem_cons_of_mem t ht', rfl⟩
      · rintro (h | ⟨t', ht', rfl⟩)
        · exact Or.inl h
        · rcases List.mem_cons.mp ht' with heq | ht''
          · rw [heq]; exact Or.inl hm
          · exact Or.inr ⟨t', ht'', rfl⟩
    · rw [if_neg hm, ih]
      constructor
      · rintro (h | ⟨t', ht', rfl⟩)
        · rcases List.mem_append.mp h with h' | h'
          · exact Or.inl h'
          · simp at h'
            exact Or.inr ⟨t, List.mem_cons_self t ts, h'⟩
        · exact Or.inr ⟨t', List.mem_cons_of_mem t ht', rfl⟩
      · rintro (h | ⟨t', ht', rfl⟩)
        · exact Or.inl (List.mem_append.mpr (Or.inl h))
        · rcases List.mem_cons.mp ht' with heq | ht''
          · rw [heq]; exact Or.inl (List.mem_append.mpr (Or.inr (by simp)))
          · exact Or.inr ⟨t', ht'', rfl⟩

theorem followsFold_count_le (pk : String) (ts : List Tag)
    (fol : List (String × String)) (x : String × String)
    (h : fol.count x ≤ 1) : (followsFold pk fol ts).count x ≤ 1 := by
  induction ts generalizing fol with
  | nil => exact h
  | cons t ts ih =>
    rw [followsFold_cons]
    by_cases hm : (pk, tagValue t) ∈ fol
    · rw [if_pos hm]; exact ih fol h
    · rw [if_neg hm]
      apply ih
      rw [List.count_append]
      by_cases hx : x = (pk, tagValue t)
      · rw [hx, List.count_eq_zero.mpr hm]
        simp
      · have hz : List.count x [(pk, tagValue t)] = 0 :=
          List.count_eq_zero.mpr (by simp [hx])
        rw [hz]
        simpa using h

theorem contactRun_idem (pk : String) (ts : List Tag) (g : Graph) :
    ts.foldl (contactStep pk)
      { ts.foldl (contactStep pk)
          { g with follows := g.follows.filter fun f => !(f.1 == pk) } with
        follows := (ts.foldl (contactStep pk)
          { g with follows := g.follows.filter fun f => !(f.1 == pk) }).follows.filter
            fun f => !(f.1 == pk) }
      = ts.foldl (contactStep pk)
          { g with follows := g.follows.filter fun f => !(f.1 == pk) } := by
  generalize hg1 : ts.foldl (contactStep pk)
    { g with follows := g.follows.filter fun f => !(f.1 == pk) } = G1
  have hfil : G1.follows.filter (fun f => !(f.1 == pk))
      = g.follows.filter (fun f => !(f.1 == pk)) := by
    obtain ⟨ad, had, hall⟩ :=
      followsFold_shape pk ts (g.follows.filter fun f => !(f.1 == pk))
    have hf1 : G1.follows = g.follows.filter (fun f => !(f.1 == pk)) ++ ad := by
      rw [← hg1, contactFold_follows]
      exact had
    rw [hf1, List.filter_append]
    have h2 : ad.filter (fun f => !(f.1 == pk)) = [] := by
      rw [List.filter_eq_nil_iff]
      intro x hx
      simp [hall x hx]
    rw [h2, List.append_nil]
    simp [List.filter_filter]
  have hmem := contactFold_users_mem pk ts
    { g with follows := g.follows.filter fun f => !(f.1 == pk) }
  rw [hg1] at hmem
  apply Graph.ext
  · rw [contactFold_users_noop pk ts (by intro t ht; exact hmem t ht)]
  · rw [contactFold_posts]
  · rw [contactFold_creates]
  · rw [contactFold_replies]
  · rw [contactFold_likes]
  · rw [contactFold_zaps]
  · rw [contactFold_follows]
    show followsFold pk (G1.follows.filter fun f => !(f.1 == pk)) ts = G1.follows
    rw [hfil]
    have hcf := contactFold_follows pk ts
      { g with follows := g.follows.filter fun f => !(f.1 == pk) }
    rw [hg1] at hcf
    exact hcf.symm

theorem storeContact_idem (g : Graph) (e : Event) :
    storeContact (storeContact g e) e = storeContact g e := by
  unfold storeContact
  exact contactRun_idem e.pubkey (getAllTags e.tags ["p"]) g

theorem storeContact_follows_eq (g : Graph) (e : Event) :
    (storeContact g e).follows =
      followsFold e.pubkey (g.follows.filter (fun f => !(f.1 == e.pubkey)))
        (getAllTags e.tags ["p"]) := by
  unfold storeContact
  exact contactFold_follows e.pubkey (getAllTags e.tags ["p"]) _

/-! Dispatch lemmas for storeEvent, one per kind handled by the Go switch. -/

theorem storeEvent_kind1 (decode : String → Except String Invoice) (g : Graph)
    {e : Event} (hk : e.kind = 1) : storeEvent decode g e = storePost g e := by
  unfold storeEvent; rw [hk]; rfl

theorem storeEvent_kind7 (decode : String → Except String Invoice) (g : Graph)
    {e : Event} (hk : e.kind = 7) : storeEvent decode g e = storeLike g e := by
  unfold storeEvent; rw [hk]; rfl

theorem storeEvent_kind3 (decode : String → Except String Invoice) (g : Graph)
    {e : Event} (hk : e.kind = 3) : storeEvent decode g e = .ok (storeContact g e) := by
  unfold storeEvent; rw [hk]; rfl

theorem storeEvent_kind9735 (decode : String → Except String Invoice) (g : Graph)
    {e : Event} (hk : e.kind = 9735) : storeEvent decode g e = storeZap decode g e := by
  unfold storeEvent; rw [hk]; rfl

/-! Lemmas about the sort used by GetFeed. -/

theorem mem_insertDesc {x e : FeedEntry} {l : List FeedEntry} :
    x ∈ insertDesc e l ↔ x = e ∨ x ∈ l := by
  induction l with
  | nil => simp [insertDesc]
  | cons y ys ih =>
    unfold insertDesc
    split
    · simp [List.mem_cons]
    · rw [List.mem_cons, ih, List.mem_cons]
      tauto

theorem insertDesc_pairwise {e : FeedEntry} {l : List FeedEntry}
    (h : l.Pairwise fun a b => b.score ≤ a.score) :
    (insertDesc e l).Pairwise fun a b => b.score ≤ a.score := by
  induction l with
  | nil => simp [insertDesc]
  | cons y ys ih =>
    unfold insertDesc
    split
    next hlt =>
      apply List.Pairwise.cons _ h
      intro z hz
      rcases List.mem_cons.mp hz with rfl | hz'
      · exact le_of_lt hlt
      · exact le_trans ((List.pairwise_cons.mp h).1 z hz') (le_of_lt hlt)
    next hge =>
      have hy := List.pairwise_cons.mp h
      apply List.Pairwise.cons
      · intro z hz
        rcases mem_insertDesc.mp hz with rfl | hz'
        · exact not_lt.mp hge
        · exact hy.1 z hz'
      · exact ih hy.2

theorem sortDesc_pairwise (l : List FeedEntry) :
    (sortDesc l).Pairwise fun a b => b.score ≤ a.score := by
  unfold sortDesc
  induction l with
  | nil => simp
  | cons x xs ih => rw [List.foldr_cons]; exact insertDesc_pairwise ih

theorem mem_sortDesc {x : FeedEntry} {l : List FeedEntry} :
    x ∈ sortDesc l ↔ x ∈ l := by
  unfold sortDesc
  induction l with
  | nil => simp
  | cons y ys ih => rw [List.foldr_cons, mem_insertDesc, ih, List.mem_cons]

theorem getFeed_mem_origin {g : Graph} {s t : Int} {lim : Nat} {e : FeedEntry}
    (h : e ∈ getFeed g s t lim) :
    ∃ p ∈ g.posts, (s < p.createdAt ∧ p.createdAt < t) ∧ e = feedEntryOf g p := by
  unfold getFeed at h
  have h1 := List.mem_of_mem_take h
  rw [mem_sortDesc] at h1
  obtain ⟨p, hp, rfl⟩ := List.mem_map.mp h1
  rw [List.mem_filter] at hp
  exact ⟨p, hp.1, by simpa using hp.2, rfl⟩

theorem mergeZap_mem {g : Graph} {src dst : String} {amt : Int}
    (h1 : hasPost g src) (h2 : hasPost g dst) :
    (src, dst, amt) ∈ (mergeZap g src dst amt).zaps := by
  unfold mergeZap
  rw [if_pos ⟨h1, h2⟩]
  split
  · assumption
  · simp

/-! Claim theorems. -/

/-- C1 (counterexample): in a window holding one item with 2 distinct reply
authors, 1 like author and 0 zap authors, GetFeed scores that item 40
(15 times 2 plus 10 times 1), not 30 as the claim states. -/
theorem getFeed_score30_cx :
    distinctAuthors (repliers exG2 "a") = 2
    ∧ distinctAuthors (likers exG2 "a") = 1
    ∧ distinctAuthors (zappers exG2 "a") = 0
    ∧ (getFeed exG2 0 100 10).map (fun fe => (fe.id, fe.score)) = [("a", 40), ("b", 10)]
    ∧ feedScore exG2 "a" ≠ 30 := by decide

/-- C1 (amended): GetFeed scores every returned item as 15 times the number
of distinct reply authors plus 10 times the number of distinct like authors
plus 50 times the number of distinct zap authors, returns the entries sorted
by score descending, and truncates the result to at most limit entries; in
the concrete scenario the item with 2 reply authors, 1 like author and 0
zaps scores 40 and is placed above the item scoring 10. -/
theorem getFeed_ranked :
    (∀ (g : Graph) (s t : Int) (lim : Nat),
        ((getFeed g s t lim).Pairwise fun a b => b.score ≤ a.score)
        ∧ (getFeed g s t lim).length ≤ lim
        ∧ ∀ e ∈ getFeed g s t lim, e.score = feedScore g e.id)
    ∧ (getFeed exG2 0 100 10).map (fun fe => (fe.id, fe.score)) = [("a", 40), ("b", 10)] := by
  constructor
  · intro g s t lim
    refine ⟨?_, ?_, ?_⟩
    · exact List.Pairwise.sublist (List.take_sublist _ _) (sortDesc_pairwise _)
    · exact List.length_take_le _ _
    · intro e he
      obtain ⟨p, hp, hw, rfl⟩ := getFeed_mem_origin he
      rfl
  · decide

/-- C1 (witness): the entry for post "a" is in the feed of the concrete
scenario and carries the formula score. -/
theorem getFeed_ranked_witness :
    entryA ∈ getFeed exG2 0 100 10 ∧ entryA.score = feedScore exG2 entryA.id :=
  ⟨by decide, (getFeed_ranked.1 exG2 0 100 10).2.2 entryA (by decide)⟩

/-- C2: for every supported event kind (1, 3, 7, 9735), a second application
of the same event to the graph produced by a successful first application
returns exactly that graph again — no node or edge is duplicated. -/
theorem storeEvent_idempotent (decode : String → Except String Invoice) (e : Event)
    (g g' : Graph) (hk : e.kind = 1 ∨ e.kind = 3 ∨ e.kind = 7 ∨ e.kind = 9735)
    (h : storeEvent decode g e = .ok g') : storeEvent decode g' e = .ok g' := by
  rcases hk with hk | hk | hk | hk
  · rw [storeEvent_kind1 decode g hk] at h
    rw [storeEvent_kind1 decode g' hk]
    exact storePost_idem h
  · rw [storeEvent_kind3 decode g hk] at h
    rw [storeEvent_kind3 decode g' hk]
    cases h
    exact congrArg Except.ok (storeContact_idem g e)
  · rw [storeEvent_kind7 decode g hk] at h
    rw [storeEvent_kind7 decode g' hk]
    exact storeLike_idem h
  · rw [storeEvent_kind9735 decode g hk] at h
    rw [storeEvent_kind9735 decode g' hk]
    exact storeZap_idem h

/-- C2 (witness): re-applying the concrete kind-1 event to the graph its
first application produced is a no-op. -/
theorem storeEvent_idempotent_witness : storeEvent dec0 gPost1 evPost1 = Except.ok gPost1 :=
  storeEvent_idempotent dec0 evPost1 emptyGraph gPost1 (Or.inl rfl)
    (by decide)

/-- C3: after two successive follow-list events of the same author, the
author's outgoing FOLLOW edges are exactly one edge per identity referenced
in the second event: an edge to q exists precisely when q is the value of a
`p` tag of the second event, and there is at most one such edge. -/
theorem storeContact_replacement (g : Graph) (e1 e2 : Event)
    (_hpk : e1.pubkey = e2.pubkey) (q : String) :
    ((e2.pubkey, q) ∈ (storeContact (storeContact g e1) e2).follows
      ↔ q ∈ (getAllTags e2.tags ["p"]).map tagValue)
    ∧ (storeContact (storeContact g e1) e2).follows.count (e2.pubkey, q) ≤ 1 := by
  constructor
  · rw [storeContact_follows_eq, followsFold_mem]
    constructor
    · rintro (hin | ⟨t, ht, heq⟩)
      · simp [List.mem_filter] at hin
      · have hq : q = tagValue t := (Prod.mk.injEq _ _ _ _).mp heq |>.2
        exact List.mem_map.mpr ⟨t, ht, hq.symm⟩
    · intro hq
      obtain ⟨t, ht, rfl⟩ := List.mem_map.mp hq
      exact Or.inr ⟨t, ht, rfl⟩
  · rw [storeContact_follows_eq]
    apply followsFold_count_le
    have hnot : (e2.pubkey, q)
        ∉ (storeContact g e1).follows.filter (fun f => !(f.1 == e2.pubkey)) := by
      intro hin
      simp [List.mem_filter] at hin
    rw [List.count_eq_zero.mpr hnot]
    exact Nat.zero_le 1

/-- C3 (witness): the concrete pair of follow lists, checked at identity
"u3" of the second list. -/
theorem storeContact_replacement_witness :
    (("pk0", "u3") ∈ (storeContact (storeContact emptyGraph evContactA) evContactB).follows
      ↔ "u3" ∈ (getAllTags evContactB.tags ["p"]).map tagValue)
    ∧ (storeContact (storeContact emptyGraph evContactA) evContactB).follows.count
        ("pk0", "u3") ≤ 1 :=
  storeContact_replacement emptyGraph evContactA evContactB rfl "u3"

/-- C4: Restore crashes with a nil-pointer dereference when no Subscriber
record exists (instead of failing with a distinguishable NotFound outcome),
crashes on the null unsubscribed_at of an active subscriber (instead of
returning false), and only the inactive case behaves as specified, clearing
unsubscribed_at, refreshing subscribed_at and returning true. -/
theorem restoreSubscriber_behavior :
    restoreSubscriber [] "alice" 500 = .error .crash
    ∧ restoreSubscriber (createSubscriber [] "alice" "sk1" 100) "alice" 500 = .error .crash
    ∧ restoreSubscriber (deleteSubscriber (createSubscriber [] "alice" "sk1" 100) "alice" 200)
        "alice" 500 = .ok (true, [⟨"alice", "sk1", 500, none⟩]) := by decide

/-- C5: the first GetOrCreate persists a Subscriber with the fresh secret,
subscribed_at set to now and unsubscribed_at null, returning isNew true; but
the second call for the same identity crashes in GetSubscriber on the
interface type assertion over the null unsubscribed_at instead of returning
the stored secret with isNew false. -/
theorem getOrCreateSubscription_behavior :
    getOrCreateSubscription [] "alice" "sk1" 100
        = .ok ("sk1", true, [⟨"alice", "sk1", 100, none⟩])
    ∧ getOrCreateSubscription [⟨"alice", "sk1", 100, none⟩] "alice" "sk2" 200
        = .error .crash := by decide

/-- C6 (counterexample): a kind-9735 event with no referenced-item tag and
no bolt11 tag does not return success: StoreZap crashes dereferencing the
absent bolt11 tag. -/
theorem storeZap_noRef_cx :
    evZapNoTags.kind = 9735 ∧ getAllTags evZapNoTags.tags ["e"] = []
    ∧ storeEvent dec0 emptyGraph evZapNoTags = .error .crash := by decide

/-- C6 (amended): a kind-9735 event carrying a decodable bolt11 invoice but
no referenced-item tag is a successful no-op: StoreEvent returns nil and the
graph is unchanged. -/
theorem storeZap_noRef_noop (decode : String → Except String Invoice) (g : Graph)
    (e : Event) (t : Tag) (inv : Invoice) (hk : e.kind = 9735)
    (ht : getLastTag e.tags ["bolt11"] = some t)
    (hd : decode (tagValue t) = .ok inv)
    (href : getAllTags e.tags ["e"] = []) :
    storeEvent decode g e = .ok g := by
  rw [storeEvent_kind9735 decode g hk]
  unfold storeZap
  simp only [ht, hd, href]

/-- C6 (witness): the concrete no-reference zap event with a decodable
invoice leaves the empty store unchanged and succeeds. -/
theorem storeZap_noRef_noop_witness :
    storeEvent dec0 emptyGraph evZapNoRef = Except.ok emptyGraph :=
  storeZap_noRef_noop dec0 emptyGraph evZapNoRef ["bolt11", "inv3000"] ⟨3000⟩ rfl
    (by decide) (by decide) (by decide)

/-- C7: every entry returned by GetFeed was created strictly after the
window start and strictly before the window end, so an item created exactly
at either bound is excluded. -/
theorem getFeed_window_strict (g : Graph) (s t : Int) (lim : Nat) :
    ∀ e ∈ getFeed g s t lim, s < e.createdAt ∧ e.createdAt < t := by
  intro e he
  obtain ⟨p, hp, hw, rfl⟩ := getFeed_mem_origin he
  exact hw

/-- C7 (witness): the concrete feed entry for post "a" lies strictly inside
the window (0, 100). -/
theorem getFeed_window_strict_witness :
    (0 : Int) < entryA.createdAt ∧ entryA.createdAt < 100 :=
  getFeed_window_strict exG2 0 100 10 entryA (by decide)

/-- C8: when a kind-9735 event with a decodable bolt11 invoice is stored
successfully, every ZAP edge the write adds carries the invoice's
smallest-unit amount integer-divided by 1000, and when the event references
an existing item the ZAP edge to it with that amount is present. -/
theorem storeZap_amount {decode : String → Except String Invoice} {g g' : Graph}
    {e : Event} {t : Tag} {inv : Invoice}
    (hk : e.kind = 9735)
    (ht : getLastTag e.tags ["bolt11"] = some t)
    (hd : decode (tagValue t) = .ok inv)
    (h : storeEvent decode g e = .ok g') :
    (∀ z ∈ g'.zaps, z ∈ g.zaps ∨ z.2.2 = Int.tdiv inv.msatoshi 1000)
    ∧ ∀ r rs, getAllTags e.tags ["e"] = r :: rs →
        hasPost g (tagValue r) →
          (e.id, tagValue r, Int.tdiv inv.msatoshi 1000) ∈ g'.zaps := by
  rw [storeEvent_kind9735 decode g hk] at h
  unfold storeZap at h
  simp only [ht, hd] at h
  cases href : getAllTags e.tags ["e"] with
  | nil =>
    simp only [href] at h
    cases h
    constructor
    · intro z hz; exact Or.inl hz
    · intro r rs hr
      simp at hr
  | cons r0 rs0 =>
    simp only [href] at h
    cases hs : saveUserAndPost g e with
    | error f => simp [hs] at h
    | ok g2 =>
      simp only [hs] at h
      cases h
      obtain ⟨hu, hp, hc, hrep, hlik, hzap, hfol, hpostsMono, husersMono⟩ :=
        saveUserAndPost_ok_spec hs
      constructor
      · intro z hz
        rcases mergeZap_zaps_sub z hz with hz' | hz'
        · rw [hzap] at hz'; exact Or.inl hz'
        · rw [hz']; exact Or.inr rfl
      · intro r rs hr hpost
        injection hr with hr1 hr2
        rw [← hr1] at hpost ⊢
        apply mergeZap_mem
        · exact ⟨postOf e, hp, rfl⟩
        · obtain ⟨qq, hq, hqid⟩ := hpost
          exact ⟨qq, hpostsMono qq hq, hqid⟩

/-- C8 (witness): the concrete 3000-msat invoice yields a ZAP edge of
amount 3 towards the referenced post "a". -/
theorem storeZap_amount_witness : ("z1", "a", (3 : Int)) ∈ gAZap.zaps :=
  (storeZap_amount
    (show evZap.kind = 9735 from rfl)
    (show getLastTag evZap.tags ["bolt11"] = some ["bolt11", "inv3000"] by decide)
    (show dec0 (tagValue ["bolt11", "inv3000"]) = Except.ok ⟨3000⟩ by decide)
    (show storeEvent dec0 gA evZap = Except.ok gAZap by decide)).2
    ["e", "a"] [] (by decide) (by decide)

/-- C9 (counterexample): a transient store failure inside GetFeed is not
surfaced to the caller: every store error produces the same nil result, so
the caller cannot recover which error occurred — the error value is logged
and dropped, not propagated. -/
theorem getFeed_error_collapse :
    getFeedTop (.error .connection) 0 100 10 = getFeedTop (.error .transaction) 0 100 10
    ∧ getFeedTop (.error .connection) 0 100 10 = none := by decide

/-- C9 (amended): when the read transaction fails, GetFeed logs the error
and returns the Go nil slice; the error value itself is discarded, so the
caller can detect the failure only because every successful read returns a
non-nil slice. -/
theorem getFeed_error_swallowed :
    (∀ (err : StoreError) (s t : Int) (lim : Nat), getFeedTop (.error err) s t lim = none)
    ∧ ∀ (g : Graph) (s t : Int) (lim : Nat),
        getFeedTop (.ok g) s t lim = some (getFeed g s t lim) := by
  exact ⟨fun err s t lim => rfl, fun g s t lim => rfl⟩

/-- C10: for every kind-9735 event without a bolt11 tag, StoreZap crashes
dereferencing the nil tag pointer before any other check — the outcome is a
runtime panic, not a returned error value, and the no-target no-op branch is
never reached. -/
theorem storeZap_missing_bolt11_crash (decode : String → Except String Invoice)
    (g : Graph) (e : Event) (hk : e.kind = 9735)
    (hb : getLastTag e.tags ["bolt11"] = none) :
    storeEvent decode g e = .error .crash := by
  rw [storeEvent_kind9735 decode g hk]
  unfold storeZap
  simp only [hb]

/-- C10 (witness): the concrete tagless kind-9735 event crashes. -/
theorem storeZap_missing_bolt11_crash_witness :
    storeEvent dec0 emptyGraph evZapNoTags = Except.error Failure.crash :=
  storeZap_missing_bolt11_crash dec0 emptyGraph evZapNoTags rfl (by decide)

end Nossence
